import Mathlib

/-!
Shallow embedding of the Lunch Roulette client
(src/components/lunch-roulette-client.tsx) and of the Genkit suggestion
flow (suggestRestaurantFlow).  Each React state handler becomes a pure
function from the current restaurant list (together with the data the
browser supplies at that point: the freshly generated id, the random
draw) to the next list and the user-visible outcome.
-/

namespace LunchRoulette

/-- JavaScript String.prototype.trim modelled on the character list:
strip leading and trailing whitespace.  (The JS whitespace class is a
little wider than Char.isWhitespace; the difference plays no role in any
statement below.) -/
def trimChars (l : List Char) : List Char :=
  (l.dropWhile Char.isWhitespace).rdropWhile Char.isWhitespace

/-- The trim applied in handleAddRestaurant: values.restaurantName.trim(). -/
def jsTrim (s : String) : String :=
  String.mk (trimChars s.data)

/-- The record type of the store, from the tsx source:
type Restaurant = { id: string; name: string; blacklisted: boolean }. -/
structure Restaurant where
  id : String
  name : String
  blacklisted : Bool
deriving DecidableEq, Repr

/-- The two zod issues of formSchema:
z.string().min(1, "Please enter a restaurant name.").max(50, "Name is too long."). -/
inductive ValidationError where
  | nameRequired
  | nameTooLong
deriving DecidableEq, Repr

/-- formSchema validation of the raw form value: zod checks min(1) and
max(50) on the submitted string itself, before any trimming happens.
(JS string length counts UTF-16 units; we count characters, which agrees
on all inputs considered here.) -/
def formSchema (restaurantName : String) : Except ValidationError String :=
  if restaurantName.length < 1 then Except.error ValidationError.nameRequired
  else if 50 < restaurantName.length then Except.error ValidationError.nameTooLong
  else Except.ok restaurantName

/-- handleAddRestaurant: appends { id: crypto.randomUUID(), name:
values.restaurantName.trim(), blacklisted: false }.  The id generated by
the browser is passed in as freshId. -/
def handleAddRestaurant (restaurants : List Restaurant) (freshId : String)
    (restaurantName : String) : List Restaurant :=
  restaurants ++ [{ id := freshId, name := jsTrim restaurantName, blacklisted := false }]

/-- The add operation as the form submits it: zodResolver validates the
raw value, and only on success does handleAddRestaurant run. -/
def addRestaurant (restaurants : List Restaurant) (freshId : String)
    (restaurantName : String) : Except ValidationError (List Restaurant) :=
  (formSchema restaurantName).map (fun v => handleAddRestaurant restaurants freshId v)

/-- handleRemoveRestaurant: restaurants.filter((r) => r.id !== id). -/
def handleRemoveRestaurant (restaurants : List Restaurant) (id : String) : List Restaurant :=
  restaurants.filter (fun r => r.id ≠ id)

/-- handleToggleBlacklist: restaurants.map((r) => r.id === id ?
{ ...r, blacklisted: !r.blacklisted } : r). -/
def handleToggleBlacklist (restaurants : List Restaurant) (id : String) : List Restaurant :=
  restaurants.map (fun r =>
    if r.id = id then { r with blacklisted := !r.blacklisted } else r)

/-- handleResetBlacklist: restaurants.map((r) => ({ ...r, blacklisted: false })). -/
def handleResetBlacklist (restaurants : List Restaurant) : List Restaurant :=
  restaurants.map (fun r => { r with blacklisted := false })

/-- activeRestaurants: restaurants.filter(r => !r.blacklisted). -/
def activeRestaurants (restaurants : List Restaurant) : List Restaurant :=
  restaurants.filter (fun r => !r.blacklisted)

/-- The destructive toast raised by handleGetSuggestion when fewer than
two active restaurants exist ("Not enough options!"). -/
inductive PickError where
  | insufficientCandidates
deriving DecidableEq, Repr

/-- handleGetSuggestion: if activeRestaurants.length < 2 it raises the
toast and returns without touching the store; otherwise it draws
randomIndex = Math.floor(Math.random() * activeRestaurants.length),
an integer in [0, length), and reveals the name at that index.  The
random draw is passed in as randomIndex; the first component of the
result is the store after the call (the handler never writes it). -/
def handleGetSuggestion (restaurants : List Restaurant) (randomIndex : Nat) :
    List Restaurant × Except PickError String :=
  let active := activeRestaurants restaurants
  if active.length < 2 then
    (restaurants, Except.error PickError.insufficientCandidates)
  else
    (restaurants,
      Except.ok ((active.getD randomIndex { id := "", name := "", blacklisted := false }).name))

/-- Output schema of the Genkit flow: { suggestedRestaurant: string }. -/
structure SuggestRestaurantOutput where
  suggestedRestaurant : String
deriving DecidableEq, Repr

/-- What a call of suggestRestaurantFlow can be observed to do. -/
inductive FlowResult where
  | ok (out : SuggestRestaurantOutput)
  | unhandledFault
deriving DecidableEq, Repr

/-- suggestRestaurantFlow body: const {output} = await
suggestRestaurantPrompt(input); return output!;  The prompt's structured
output may be absent and the flow force-unwraps it, so an absent output
escapes the flow as an unhandled fault.  No EmptyResponseError value is
constructed, thrown or caught anywhere in the repository.  The
restaurants argument is the flow input; the promptOutput argument is the
structured output the backend produced for it, when any. -/
def suggestRestaurantFlow (restaurants : List String)
    (promptOutput : Option SuggestRestaurantOutput) : FlowResult :=
  match restaurants, promptOutput with
  | _, some o => FlowResult.ok o
  | _, none => FlowResult.unhandledFault

/-! ### Facts about the JS trim model -/

theorem dropWhile_trimChars (l : List Char) :
    (trimChars l).dropWhile Char.isWhitespace = trimChars l := by
  rw [List.dropWhile_eq_self_iff]
  intro hl
  have hpre : trimChars l <+: l.dropWhile Char.isWhitespace :=
    List.rdropWhile_prefix Char.isWhitespace (l.dropWhile Char.isWhitespace)
  have h0 : 0 < (l.dropWhile Char.isWhitespace).length :=
    Nat.lt_of_lt_of_le hl hpre.length_le
  have hg : (trimChars l).get ⟨0, hl⟩ = (l.dropWhile Char.isWhitespace).get ⟨0, h0⟩ := by
    simpa [List.get_eq_getElem] using hpre.getElem hl
  rw [hg]
  exact List.dropWhile_get_zero_not Char.isWhitespace l h0

theorem trimChars_idem (l : List Char) : trimChars (trimChars l) = trimChars l := by
  show ((trimChars l).dropWhile Char.isWhitespace).rdropWhile Char.isWhitespace = trimChars l
  rw [dropWhile_trimChars]
  exact List.rdropWhile_idempotent Char.isWhitespace (l.dropWhile Char.isWhitespace)

theorem trimChars_length_le (l : List Char) : (trimChars l).length ≤ l.length :=
  Nat.le_trans
    ( List.rdropWhile_prefix Char.isWhitespace (l.dropWhile Char.isWhitespace)).length_le
    ((List.dropWhile_sublist Char.isWhitespace :
        List.Sublist (l.dropWhile Char.isWhitespace) l)).length_le

theorem jsTrim_idem (s : String) : jsTrim (jsTrim s) = jsTrim s :=
  congrArg String.mk (trimChars_idem s.data)

theorem jsTrim_length_le (s : String) : (jsTrim s).length ≤ s.length :=
  trimChars_length_le s.data

theorem getD_map_of_lt {α β : Type} (f : α → β) (l : List α) (k : Nat) (d : β) (dd : α)
    (hk : k < l.length) : (l.map f).getD k d = f (l.getD k dd) := by
  have hk2 : k < (l.map f).length := by simpa using hk
  rw [List.getD_eq_getElem?_getD, List.getD_eq_getElem?_getD,
    List.getElem?_eq_getElem hk2, List.getElem?_eq_getElem hk]
  simp

/-! ### The claims -/

/-- C1: with fewer than 2 eligible (non-blacklisted) records,
handleGetSuggestion raises the destructive toast (the
InsufficientCandidatesError of the spec) and returns, leaving the
restaurant list exactly as it was, whatever random draw was pending. -/
theorem pick_rejected_when_fewer_than_two_eligible
    (restaurants : List Restaurant) (randomIndex : Nat)
    (h : (activeRestaurants restaurants).length < 2) :
    handleGetSuggestion restaurants randomIndex
      = (restaurants, Except.error PickError.insufficientCandidates) := by
  unfold handleGetSuggestion
  simp [h]

theorem pick_rejected_when_fewer_than_two_eligible_witness :
    (activeRestaurants [⟨"a", "Pizza", false⟩, ⟨"b", "Sushi", true⟩]).length < 2
    ∧ handleGetSuggestion [⟨"a", "Pizza", false⟩, ⟨"b", "Sushi", true⟩] 0
      = ([⟨"a", "Pizza", false⟩, ⟨"b", "Sushi", true⟩],
          Except.error PickError.insufficientCandidates) :=
  ⟨by decide, pick_rejected_when_fewer_than_two_eligible _ 0 (by decide)⟩

/-- C3: with at least 2 eligible records and a drawn index inside
[0, number of eligible records), the local pick returns the name at that
position of the eligible subsequence, and that name belongs to a
non-blacklisted record of the current list. -/
theorem local_pick_returns_eligible_name
    (restaurants : List Restaurant) (randomIndex : Nat)
    (h2 : 2 ≤ (activeRestaurants restaurants).length)
    (hi : randomIndex < (activeRestaurants restaurants).length) :
    (handleGetSuggestion restaurants randomIndex).2
      = Except.ok ((activeRestaurants restaurants).get ⟨randomIndex, hi⟩).name
    ∧ ∃ r ∈ restaurants, r.blacklisted = false
        ∧ r.name = ((activeRestaurants restaurants).get ⟨randomIndex, hi⟩).name := by
  constructor
  · unfold handleGetSuggestion
    rw [if_neg (Nat.not_lt.mpr h2)]
    show Except.ok ((activeRestaurants restaurants).getD randomIndex _).name = _
    rw [List.getD_eq_getElem?_getD, List.getElem?_eq_getElem hi]
    rfl
  · have hx : (activeRestaurants restaurants).get ⟨randomIndex, hi⟩
        ∈ activeRestaurants restaurants := List.get_mem _ _ _
    have hx2 := List.mem_filter.mp hx
    exact ⟨_, hx2.1, by simpa using hx2.2, rfl⟩

theorem local_pick_returns_eligible_name_witness :
    (handleGetSuggestion [⟨"a", "Pizza", false⟩, ⟨"b", "Sushi", false⟩] 1).2
      = Except.ok "Sushi"
    ∧ ∃ r ∈ [Restaurant.mk "a" "Pizza" false, Restaurant.mk "b" "Sushi" false],
        r.blacklisted = false ∧ r.name = "Sushi" :=
  local_pick_returns_eligible_name
    [⟨"a", "Pizza", false⟩, ⟨"b", "Sushi", false⟩] 1 (by decide) (by decide)

/-- C4: the claim says an absent structured output is turned into an
EmptyResponseError that is caught and surfaced.  The code instead
force-unwraps the possibly-absent output, so the fault escapes the flow
unhandled (first conjunct); a present output is passed through
unchanged (second conjunct).  This records the divergence: the repository
contains no EmptyResponseError and no handler for the absent case. -/
theorem absent_flow_output_escapes_unhandled :
    suggestRestaurantFlow ["Pizza", "Sushi"] none = FlowResult.unhandledFault
    ∧ ∀ restaurants out, suggestRestaurantFlow restaurants (some out) = FlowResult.ok out :=
  ⟨rfl, fun _ _ => rfl⟩

/-- C7: handleResetBlacklist clears the blacklisted flag of every record
and is idempotent. -/
theorem reset_clears_all_and_idempotent (restaurants : List Restaurant) :
    (∀ r ∈ handleResetBlacklist restaurants, r.blacklisted = false)
    ∧ handleResetBlacklist (handleResetBlacklist restaurants)
        = handleResetBlacklist restaurants := by
  constructor
  · intro r hr
    obtain ⟨x, -, rfl⟩ := List.mem_map.mp hr
    rfl
  · unfold handleResetBlacklist
    rw [List.map_map]
    exact congrArg (fun g => List.map g restaurants) (funext fun r => rfl)

theorem reset_clears_all_and_idempotent_witness :
    (∀ r ∈ handleResetBlacklist [⟨"a", "Pizza", true⟩, ⟨"b", "Sushi", false⟩],
        r.blacklisted = false)
    ∧ handleResetBlacklist (handleResetBlacklist [⟨"a", "Pizza", true⟩, ⟨"b", "Sushi", false⟩])
        = handleResetBlacklist [⟨"a", "Pizza", true⟩, ⟨"b", "Sushi", false⟩] :=
  reset_clears_all_and_idempotent [⟨"a", "Pizza", true⟩, ⟨"b", "Sushi", false⟩]

/-- C8: handleRemoveRestaurant keeps the surviving records in their
original relative order (the result is a sublist), keeps exactly the
records whose id differs from the requested one, and is a no-op when no
record carries that id. -/
theorem remove_deletes_matching_preserving_order
    (restaurants : List Restaurant) (id : String) :
    List.Sublist (handleRemoveRestaurant restaurants id) restaurants
    ∧ (∀ r, r ∈ handleRemoveRestaurant restaurants id ↔ r ∈ restaurants ∧ r.id ≠ id)
    ∧ ((∀ r ∈ restaurants, r.id ≠ id) → handleRemoveRestaurant restaurants id = restaurants) := by
  refine ⟨List.filter_sublist _, fun r => ?_, fun h => ?_⟩
  · unfold handleRemoveRestaurant
    simp
  · unfold handleRemoveRestaurant
    rw [List.filter_eq_self]
    intro r hr
    simpa using h r hr

theorem remove_deletes_matching_preserving_order_witness :
    List.Sublist (handleRemoveRestaurant [⟨"a", "Pizza", false⟩, ⟨"b", "Sushi", false⟩] "b")
      [⟨"a", "Pizza", false⟩, ⟨"b", "Sushi", false⟩]
    ∧ (∀ r, r ∈ handleRemoveRestaurant [⟨"a", "Pizza", false⟩, ⟨"b", "Sushi", false⟩] "b"
        ↔ r ∈ [Restaurant.mk "a" "Pizza" false, Restaurant.mk "b" "Sushi" false] ∧ r.id ≠ "b")
    ∧ ((∀ r ∈ [Restaurant.mk "a" "Pizza" false, Restaurant.mk "b" "Sushi" false], r.id ≠ "b")
        → handleRemoveRestaurant [⟨"a", "Pizza", false⟩, ⟨"b", "Sushi", false⟩] "b"
          = [⟨"a", "Pizza", false⟩, ⟨"b", "Sushi", false⟩]) :=
  remove_deletes_matching_preserving_order [⟨"a", "Pizza", false⟩, ⟨"b", "Sushi", false⟩] "b"

/-- C9: handleToggleBlacklist keeps the length, rewrites each position
by flipping the blacklisted flag exactly when the record there carries
the requested id, and is a no-op when no record carries that id. -/
theorem toggle_flips_matching_record (restaurants : List Restaurant) (id : String) :
    (handleToggleBlacklist restaurants id).length = restaurants.length
    ∧ (∀ k d, k < restaurants.length →
        (handleToggleBlacklist restaurants id).getD k d
          = (if (restaurants.getD k d).id = id
              then { restaurants.getD k d with
                      blacklisted := !(restaurants.getD k d).blacklisted }
              else restaurants.getD k d))
    ∧ ((∀ r ∈ restaurants, r.id ≠ id) → handleToggleBlacklist restaurants id = restaurants) := by
  refine ⟨List.length_map _ _, fun k d hk => ?_, fun h => ?_⟩
  · exact getD_map_of_lt _ restaurants k d d hk
  · unfold handleToggleBlacklist
    have heq : restaurants.map
        (fun r => if r.id = id then { r with blacklisted := !r.blacklisted } else r)
        = restaurants.map (fun r => r) :=
      List.map_congr_left (fun r hr => if_neg (h r hr))
    rw [heq]
    exact List.map_id' restaurants

theorem toggle_flips_matching_record_witness :
    (handleToggleBlacklist [⟨"a", "Pizza", false⟩, ⟨"b", "Sushi", false⟩] "b").length
      = ([Restaurant.mk "a" "Pizza" false, Restaurant.mk "b" "Sushi" false] : List Restaurant).length
    ∧ (∀ k d, k < ([Restaurant.mk "a" "Pizza" false, Restaurant.mk "b" "Sushi" false] : List Restaurant).length →
        (handleToggleBlacklist [⟨"a", "Pizza", false⟩, ⟨"b", "Sushi", false⟩] "b").getD k d
          = (if (([Restaurant.mk "a" "Pizza" false, Restaurant.mk "b" "Sushi" false] : List Restaurant).getD k d).id = "b"
              then { ([Restaurant.mk "a" "Pizza" false, Restaurant.mk "b" "Sushi" false] : List Restaurant).getD k d with
                      blacklisted := !(([Restaurant.mk "a" "Pizza" false, Restaurant.mk "b" "Sushi" false] : List Restaurant).getD k d).blacklisted }
              else ([Restaurant.mk "a" "Pizza" false, Restaurant.mk "b" "Sushi" false] : List Restaurant).getD k d))
    ∧ ((∀ r ∈ [Restaurant.mk "a" "Pizza" false, Restaurant.mk "b" "Sushi" false], r.id ≠ "b")
        → handleToggleBlacklist [⟨"a", "Pizza", false⟩, ⟨"b", "Sushi", false⟩] "b"
          = [⟨"a", "Pizza", false⟩, ⟨"b", "Sushi", false⟩]) :=
  toggle_flips_matching_record [⟨"a", "Pizza", false⟩, ⟨"b", "Sushi", false⟩] "b"

/-- C10: the frame of the two flag operations: both keep the length and,
at every position, the id and the name; handleToggleBlacklist changes
the blacklisted flag only where the record carries the requested id, and
handleResetBlacklist only ever writes blacklisted = false. -/
theorem toggle_and_reset_change_only_flags (restaurants : List Restaurant) (id : String) :
    (handleToggleBlacklist restaurants id).length = restaurants.length
    ∧ (handleResetBlacklist restaurants).length = restaurants.length
    ∧ (∀ k d, k < restaurants.length →
        ((handleToggleBlacklist restaurants id).getD k d).id = (restaurants.getD k d).id
        ∧ ((handleToggleBlacklist restaurants id).getD k d).name = (restaurants.getD k d).name
        ∧ ((handleToggleBlacklist restaurants id).getD k d).blacklisted
            = (if (restaurants.getD k d).id = id
                then !(restaurants.getD k d).blacklisted
                else (restaurants.getD k d).blacklisted)
        ∧ ((handleResetBlacklist restaurants).getD k d).id = (restaurants.getD k d).id
        ∧ ((handleResetBlacklist restaurants).getD k d).name = (restaurants.getD k d).name
        ∧ ((handleResetBlacklist restaurants).getD k d).blacklisted = false) := by
  refine ⟨List.length_map _ _, List.length_map _ _, fun k d hk => ?_⟩
  have htog : (handleToggleBlacklist restaurants id).getD k d
      = (if (restaurants.getD k d).id = id
          then { restaurants.getD k d with
                  blacklisted := !(restaurants.getD k d).blacklisted }
          else restaurants.getD k d) :=
    getD_map_of_lt _ restaurants k d d hk
  have hres : (handleResetBlacklist restaurants).getD k d
      = { restaurants.getD k d with blacklisted := false } :=
    getD_map_of_lt _ restaurants k d d hk
  rw [htog, hres]
  refine ⟨?_, ?_, ?_, rfl, rfl, rfl⟩ <;> split <;> rfl

theorem toggle_and_reset_change_only_flags_witness :
    (handleToggleBlacklist [⟨"a", "Pizza", true⟩] "a").length
      = ([Restaurant.mk "a" "Pizza" true] : List Restaurant).length
    ∧ (handleResetBlacklist [⟨"a", "Pizza", true⟩]).length
      = ([Restaurant.mk "a" "Pizza" true] : List Restaurant).length
    ∧ (∀ k d, k < ([Restaurant.mk "a" "Pizza" true] : List Restaurant).length →
        ((handleToggleBlacklist [⟨"a", "Pizza", true⟩] "a").getD k d).id
            = (([Restaurant.mk "a" "Pizza" true] : List Restaurant).getD k d).id
        ∧ ((handleToggleBlacklist [⟨"a", "Pizza", true⟩] "a").getD k d).name
            = (([Restaurant.mk "a" "Pizza" true] : List Restaurant).getD k d).name
        ∧ ((handleToggleBlacklist [⟨"a", "Pizza", true⟩] "a").getD k d).blacklisted
            = (if (([Restaurant.mk "a" "Pizza" true] : List Restaurant).getD k d).id = "a"
                then !(([Restaurant.mk "a" "Pizza" true] : List Restaurant).getD k d).blacklisted
                else (([Restaurant.mk "a" "Pizza" true] : List Restaurant).getD k d).blacklisted)
        ∧ ((handleResetBlacklist [⟨"a", "Pizza", true⟩]).getD k d).id
            = (([Restaurant.mk "a" "Pizza" true] : List Restaurant).getD k d).id
        ∧ ((handleResetBlacklist [⟨"a", "Pizza", true⟩]).getD k d).name
            = (([Restaurant.mk "a" "Pizza" true] : List Restaurant).getD k d).name
        ∧ ((handleResetBlacklist [⟨"a", "Pizza", true⟩]).getD k d).blacklisted = false) :=
  toggle_and_reset_change_only_flags [⟨"a", "Pizza", true⟩] "a"

/-- C6: adding a valid name and then removing the freshly generated id
restores the prior list exactly, provided the fresh id collides with no
existing id. -/
theorem add_then_remove_roundtrip (restaurants : List Restaurant)
    (freshId restaurantName : String)
    (hlen : 1 ≤ restaurantName.length) (hmax : restaurantName.length ≤ 50)
    (hfresh : ∀ r ∈ restaurants, r.id ≠ freshId) :
    ∃ next, addRestaurant restaurants freshId restaurantName = Except.ok next
      ∧ handleRemoveRestaurant next freshId = restaurants := by
  refine ⟨handleAddRestaurant restaurants freshId restaurantName, ?_, ?_⟩
  · unfold addRestaurant formSchema
    rw [if_neg (by omega), if_neg (by omega)]
    rfl
  · unfold handleRemoveRestaurant handleAddRestaurant
    rw [List.filter_append,
      List.filter_eq_self.mpr (fun r hr => by simpa using hfresh r hr)]
    simp

theorem add_then_remove_roundtrip_witness :
    ∃ next, addRestaurant [⟨"a", "Pizza", false⟩] "b" " Sushi " = Except.ok next
      ∧ handleRemoveRestaurant next "b" = [⟨"a", "Pizza", false⟩] :=
  add_then_remove_roundtrip [⟨"a", "Pizza", false⟩] "b" " Sushi "
    (by decide) (by decide) (by decide)

/-- C2 counterexample: the claim says validation applies to the trimmed
name, so the all-whitespace name " " (which trims to the empty string)
must fail.  The code validates the raw form value, whose length is 1, so
the add succeeds and appends a record whose name is the empty string. -/
theorem add_accepts_allwhitespace_name_cex :
    jsTrim " " = ""
    ∧ addRestaurant [] "id0" " "
        = Except.ok [{ id := "id0", name := "", blacklisted := false }] :=
  ⟨rfl, rfl⟩

/-- C2 amended: the add fails with a ValidationError if and only if the
raw, untrimmed name is empty or longer than 50 characters (so a
50-character name succeeds and a 51-character one fails, but an
all-whitespace name of length between 1 and 50 succeeds); on success a
record with the trimmed name, the freshly generated id and
blacklisted = false is appended. -/
theorem add_validates_untrimmed_name (restaurants : List Restaurant)
    (freshId restaurantName : String) :
    ((∃ e, addRestaurant restaurants freshId restaurantName = Except.error e)
      ↔ (restaurantName.length = 0 ∨ 50 < restaurantName.length))
    ∧ (restaurantName.length = 0 →
        addRestaurant restaurants freshId restaurantName
          = Except.error ValidationError.nameRequired)
    ∧ (50 < restaurantName.length →
        addRestaurant restaurants freshId restaurantName
          = Except.error ValidationError.nameTooLong)
    ∧ (1 ≤ restaurantName.length → restaurantName.length ≤ 50 →
        addRestaurant restaurants freshId restaurantName
          = Except.ok (restaurants ++
              [{ id := freshId, name := jsTrim restaurantName, blacklisted := false }])) := by
  unfold addRestaurant formSchema
  rcases Nat.lt_or_ge restaurantName.length 1 with h1 | h1
  · rw [if_pos h1]
    refine ⟨?_, ?_, ?_, ?_⟩
    · exact Iff.intro (fun _ => Or.inl (by omega))
        (fun _ => ⟨ValidationError.nameRequired, rfl⟩)
    · exact fun _ => rfl
    · intro h; omega
    · intro h; omega
  · rw [if_neg (Nat.not_lt.mpr h1)]
    rcases Nat.lt_or_ge 50 restaurantName.length with h2 | h2
    · rw [if_pos h2]
      refine ⟨?_, ?_, ?_, ?_⟩
      · exact Iff.intro (fun _ => Or.inr h2)
          (fun _ => ⟨ValidationError.nameTooLong, rfl⟩)
      · intro h; omega
      · exact fun _ => rfl
      · intro _ h; omega
    · rw [if_neg (Nat.not_lt.mpr h2)]
      refine ⟨?_, ?_, ?_, ?_⟩
      · refine Iff.intro (fun he => ?_) (fun h => by omega)
        obtain ⟨e, he⟩ := he
        cases he
      · intro h; omega
      · intro h; omega
      · exact fun _ _ => rfl

theorem add_validates_untrimmed_name_witness :
    ((∃ e, addRestaurant [] "w0" "Pizza" = Except.error e)
      ↔ (String.length "Pizza" = 0 ∨ 50 < String.length "Pizza"))
    ∧ (String.length "Pizza" = 0 →
        addRestaurant [] "w0" "Pizza" = Except.error ValidationError.nameRequired)
    ∧ (50 < String.length "Pizza" →
        addRestaurant [] "w0" "Pizza" = Except.error ValidationError.nameTooLong)
    ∧ (1 ≤ String.length "Pizza" → String.length "Pizza" ≤ 50 →
        addRestaurant [] "w0" "Pizza"
          = Except.ok ([] ++ [{ id := "w0", name := jsTrim "Pizza", blacklisted := false }])) :=
  add_validates_untrimmed_name [] "w0" "Pizza"

/-- Pairwise distinctness of the record ids, the uniqueness half of the
spec's data-model invariant. -/
def idsUnique (restaurants : List Restaurant) : Prop :=
  restaurants.Pairwise (fun a b => a.id ≠ b.id)

/-- The invariant exactly as the spec claims it: unique ids and trimmed,
non-empty, length-bounded names. -/
def storeInvariant (restaurants : List Restaurant) : Prop :=
  idsUnique restaurants
  ∧ ∀ r ∈ restaurants, jsTrim r.name = r.name ∧ r.name ≠ "" ∧ r.name.length ≤ 50

/-- The invariant the code actually maintains: unique ids and trimmed,
length-bounded names, possibly empty. -/
def storeInvariantWeak (restaurants : List Restaurant) : Prop :=
  idsUnique restaurants
  ∧ ∀ r ∈ restaurants, jsTrim r.name = r.name ∧ r.name.length ≤ 50

/-- C5 counterexample: starting from the empty list, which satisfies the
claimed invariant, the accepted add of the all-whitespace name " "
produces a record whose name is empty, so the claimed invariant (names
non-empty) is not preserved even though the fresh id "id1" is distinct
from every existing id. -/
theorem add_breaks_claimed_invariant_cex :
    storeInvariant []
    ∧ addRestaurant [] "id1" " "
        = Except.ok [{ id := "id1", name := "", blacklisted := false }]
    ∧ ¬ storeInvariant [{ id := "id1", name := "", blacklisted := false }] := by
  refine ⟨⟨List.Pairwise.nil, by simp⟩, rfl, fun h => ?_⟩
  exact (h.2 { id := "id1", name := "", blacklisted := false } (by simp)).2.1 rfl

/-- C5 amended: every store operation preserves the invariant weakened
to allow the empty name: assuming each freshly generated id is distinct
from all existing ids, ids stay pairwise distinct and every name stays
trimmed and at most 50 characters long (an accepted all-whitespace add
stores the empty string, so non-emptiness is not preserved). -/
theorem store_ops_preserve_weak_invariant (restaurants : List Restaurant)
    (hinv : storeInvariantWeak restaurants) :
    (∀ freshId restaurantName next,
        (∀ r ∈ restaurants, r.id ≠ freshId) →
        addRestaurant restaurants freshId restaurantName = Except.ok next →
        storeInvariantWeak next)
    ∧ (∀ id, storeInvariantWeak (handleRemoveRestaurant restaurants id))
    ∧ (∀ id, storeInvariantWeak (handleToggleBlacklist restaurants id))
    ∧ storeInvariantWeak (handleResetBlacklist restaurants) := by
  obtain ⟨hids, hnames⟩ := hinv
  refine ⟨?_, ?_, ?_, ?_⟩
  · intro freshId restaurantName next hfresh hok
    unfold addRestaurant formSchema at hok
    rcases Nat.lt_or_ge restaurantName.length 1 with h1 | h1
    · rw [if_pos h1] at hok; cases hok
    rw [if_neg (Nat.not_lt.mpr h1)] at hok
    rcases Nat.lt_or_ge 50 restaurantName.length with h2 | h2
    · rw [if_pos h2] at hok; cases hok
    rw [if_neg (Nat.not_lt.mpr h2)] at hok
    have hok2 : Except.ok (handleAddRestaurant restaurants freshId restaurantName)
        = Except.ok next := hok
    have hnext : next = restaurants ++
        [{ id := freshId, name := jsTrim restaurantName, blacklisted := false }] :=
      (Except.ok.inj hok2).symm
    rw [hnext]
    constructor
    · show List.Pairwise _ (restaurants ++ _)
      rw [List.pairwise_append]
      refine ⟨hids, List.pairwise_singleton _ _, fun a ha b hb => ?_⟩
      have hb2 : b = { id := freshId, name := jsTrim restaurantName, blacklisted := false } := by
        simpa using hb
      subst hb2
      exact hfresh a ha
    · intro r hr
      rcases List.mem_append.mp hr with hr | hr
      · exact hnames r hr
      · have hr2 : r = { id := freshId, name := jsTrim restaurantName, blacklisted := false } := by
          simpa using hr
        subst hr2
        exact ⟨jsTrim_idem restaurantName, Nat.le_trans (jsTrim_length_le restaurantName) h2⟩
  · intro id
    refine ⟨hids.sublist (List.filter_sublist _), fun r hr => ?_⟩
    exact hnames r (List.mem_filter.mp hr).1
  · intro id
    constructor
    · show List.Pairwise _ (restaurants.map _)
      rw [List.pairwise_map]
      refine hids.imp (fun hab => ?_)
      intro h
      apply hab
      revert h
      split <;> split <;> exact fun h => h
    · intro r hr
      obtain ⟨x, hx, rfl⟩ := List.mem_map.mp hr
      have hxn := hnames x hx
      split <;> exact hxn
  · constructor
    · show List.Pairwise _ (restaurants.map _)
      rw [List.pairwise_map]
      exact hids.imp (fun hab h => hab h)
    · intro r hr
      obtain ⟨x, hx, rfl⟩ := List.mem_map.mp hr
      exact hnames x hx

theorem store_ops_preserve_weak_invariant_witness :
    (∀ freshId restaurantName next,
        (∀ r ∈ [Restaurant.mk "a" "Pizza" false], r.id ≠ freshId) →
        addRestaurant [Restaurant.mk "a" "Pizza" false] freshId restaurantName
          = Except.ok next →
        storeInvariantWeak next)
    ∧ (∀ id, storeInvariantWeak (handleRemoveRestaurant [Restaurant.mk "a" "Pizza" false] id))
    ∧ (∀ id, storeInvariantWeak (handleToggleBlacklist [Restaurant.mk "a" "Pizza" false] id))
    ∧ storeInvariantWeak (handleResetBlacklist [Restaurant.mk "a" "Pizza" false]) :=
  store_ops_preserve_weak_invariant [Restaurant.mk "a" "Pizza" false]
    ⟨List.pairwise_singleton _ _, by
      intro r hr
      have hr2 : r = Restaurant.mk "a" "Pizza" false := by simpa using hr
      subst hr2
      exact ⟨rfl, by decide⟩⟩

end LunchRoulette
